import Mathlib

set_option maxRecDepth 1000000

/-!
Verification development for the cell2sentence4longevity age-prediction
service.  The definitions below are a shallow embedding of the Python
source (`knockout.py` and `server.py`): the prompt builder, the gene
removal text surgery, the regex-based age parser, the knockout engine and
the standalone prediction path.  The remote vLLM completion endpoint is
abstracted as an oracle `complete : String → Option String` (`none`
models an upstream HTTP/timeout failure, `some text` the first
candidate's text).  Python floats are modelled as exact rationals.
-/

namespace C2S

/-- Python `\s` whitespace class (ASCII part, which is all the prompts use). -/
def isPySpace (c : Char) : Bool :=
  c = ' ' || c = '\t' || c = '\n' || c = '\r' || c = '\x0b' || c = '\x0c'

/-- ASCII decimal digit, the `\d` of the age-extraction regex. -/
def isDigitCh (c : Char) : Bool :=
  '0' ≤ c && c ≤ '9'

/-- `startsWith pat s` : `pat` is a prefix of `s` (over raw character lists). -/
def startsWith : List Char → List Char → Bool
  | [], _ => true
  | _ :: _, [] => false
  | p :: ps, c :: cs => p = c && startsWith ps cs

/-- One step bound by fuel of Python `str.replace`: left-to-right,
non-overlapping replacement of every occurrence of `pat` by `repl`.
Fuel `n ≥ s.length` makes it total and keeps the kernel able to evaluate it. -/
def replaceFuel (pat repl : List Char) : Nat → List Char → List Char
  | 0, s => s
  | _ + 1, [] => []
  | n + 1, c :: cs =>
    if pat ≠ [] ∧ startsWith pat (c :: cs) then
      repl ++ replaceFuel pat repl n ((c :: cs).drop pat.length)
    else
      c :: replaceFuel pat repl n cs

/-- Python `s.replace(pat, repl)` on character lists. -/
def replaceL (pat repl s : List Char) : List Char :=
  replaceFuel pat repl s.length s

/-- Fuel-bounded body of `re.sub(r'\s+', ' ', s)`: every maximal run of
whitespace becomes a single space. -/
def collapseFuel : Nat → List Char → List Char
  | 0, s => s
  | _ + 1, [] => []
  | n + 1, c :: cs =>
    if isPySpace c then ' ' :: collapseFuel n (cs.dropWhile isPySpace)
    else c :: collapseFuel n cs

/-- `re.sub(r'\s+', ' ', s)` on character lists. -/
def collapseWs (s : List Char) : List Char :=
  collapseFuel s.length s

/-- Fuel-bounded body of Python `str.split()` (no argument): split on runs
of whitespace, discarding empty fields. -/
def splitFuel : Nat → List Char → List String
  | 0, _ => []
  | _ + 1, [] => []
  | n + 1, c :: cs =>
    if isPySpace c then splitFuel n cs
    else
      String.mk (c :: cs.takeWhile (fun x => !isPySpace x)) ::
        splitFuel n (cs.dropWhile (fun x => !isPySpace x))

/-- Python `s.split()` (whitespace tokenisation, empties discarded). -/
def splitWs (s : List Char) : List String :=
  splitFuel s.length s

/-- Python `s.strip()`. -/
def pyStrip (s : String) : String :=
  String.mk (((s.data.dropWhile isPySpace).reverse.dropWhile isPySpace).reverse)

/-- Python `"\n".join(parts)`. -/
def joinLines : List String → String
  | [] => ""
  | [x] => x
  | x :: xs => x ++ "\n" ++ joinLines xs

/-- Python `" ".join(parts)`. -/
def joinSp : List String → String
  | [] => ""
  | [x] => x
  | x :: xs => x ++ " " ++ joinSp xs

/-- Value of a digit character. -/
def digitVal (c : Char) : Nat :=
  c.toNat - '0'.toNat

/-- Decimal digits to a natural number. -/
def digitsToNat (l : List Char) : Nat :=
  l.foldl (fun n c => 10 * n + digitVal c) 0

/-- Value of `float("<intD>.<fracD>")` as an exact rational. -/
def decimalValue (intD fracD : List Char) : ℚ :=
  (digitsToNat intD : ℚ) + (digitsToNat fracD : ℚ) / (10 : ℚ) ^ fracD.length

/-- The value of the greedy match of `\d+\.?\d*` starting at the head of
`l` (the head is known to be a digit): the maximal digit run, then an
optional decimal point, then the maximal following digit run. -/
def numFrom (l : List Char) : ℚ :=
  let intD := l.takeWhile isDigitCh
  let rest := l.dropWhile isDigitCh
  match rest with
  | '.' :: rs => decimalValue intD (rs.takeWhile isDigitCh)
  | _ => decimalValue intD []

/-- The leftmost match of `\d+\.?\d*` (greedy), converted to a rational,
mirroring `float(re.findall(r'\d+\.?\d*', raw)[0])`; `none` when the text
contains no digit, i.e. when `re.findall` returns an empty list. -/
def findNum : List Char → Option ℚ
  | [] => none
  | c :: cs =>
    if isDigitCh c then some (numFrom (c :: cs))
    else findNum cs

/-- Age extraction from the (stripped) raw model response, `knockout.py`
lines 110-117 / `server.py` lines 198-207. -/
def extractAge (raw : String) : Option ℚ :=
  findNum raw.data

/-- The fixed header line (note: it ends with an embedded newline). -/
def headerLine : String :=
  "The following is a list of aging related gene names ordered by descending expression level in a cell.\n"

/-- Fixed instruction line (1). -/
def instr1 : String :=
  "Predict the Age of the donor from whom these cells were taken."

/-- Fixed instruction line (2). -/
def instr2 : String :=
  "Answer only with age value in years:"

/-- The `prompt_parts` list of `predict_age_from_sentence`
(`knockout.py` lines 58-74): the header, then each optional metadata line
appended when its guard fires (Python truthiness: `if sex:` skips both
`None` and `""`; `if smoking_status is not None:` keeps `0`), then the
cell-sentence line and two instruction lines. -/
def promptParts (geneSentence : String) (sex : Option String)
    (smoking : Option Int) (tissue cellType : Option String) : List String :=
  let parts := [headerLine]
  let parts := match sex with
    | some s => if s = "" then parts else parts ++ ["Sex: " ++ s]
    | none => parts
  let parts := match smoking with
    | some n => parts ++ ["Smoking status: " ++ toString n]
    | none => parts
  let parts := match tissue with
    | some t => if t = "" then parts else parts ++ ["Tissue: " ++ t]
    | none => parts
  let parts := match cellType with
    | some ct => if ct = "" then parts else parts ++ ["Cell type: " ++ ct]
    | none => parts
  parts ++ ["Aging related cell sentence: " ++ geneSentence, instr1, instr2]

/-- `prompt = "\n".join(prompt_parts)` (`knockout.py` line 76). -/
def buildPrompt (geneSentence : String) (sex : Option String)
    (smoking : Option Int) (tissue cellType : Option String) : String :=
  joinLines (promptParts geneSentence sex smoking tissue cellType)

/-- The gene-removal text surgery of `predict_age_from_sentence`
(`knockout.py` lines 83-87): three global `str.replace` passes followed by
whitespace collapsing. -/
def removeGeneFromPrompt (g : String) (prompt : String) : String :=
  let p1 := replaceL (" " ++ g ++ " ").data [' '] prompt.data
  let p2 := replaceL (" " ++ g).data [] p1
  let p3 := replaceL (g ++ " ").data [] p2
  String.mk (collapseWs p3)

/-- Error kinds of the knockout/prediction pipeline (spec section 7). -/
inductive KErr where
  | inputError : KErr
  | upstreamError : KErr
  | parseError : KErr
deriving DecidableEq, Repr

/-- `endsWithL pat s` : `pat` is a suffix of `s`. -/
def endsWithL (pat s : List Char) : Bool :=
  startsWith pat.reverse s.reverse

/-- Second definition, following the spec's words rather than the code, for
the refinement comparison of the gene-removal rule: replace occurrences of
`" <gene> "` with `" "`, then `" <gene>"` at end-of-text with `""`, then
`"<gene> "` at start-of-text with `""`, then collapse any run of
whitespace to a single space. -/
def specGeneRemoval (g : String) (prompt : String) : String :=
  let p1 := replaceL (" " ++ g ++ " ").data [' '] prompt.data
  let p2 := if endsWithL (" " ++ g).data p1 then p1.take (p1.length - (" " ++ g).data.length) else p1
  let p3 := if startsWith (g ++ " ").data p2 then p2.drop (g ++ " ").data.length else p2
  String.mk (collapseWs p3)

/-- `containsSub pat s` : `pat` occurs as a contiguous substring of `s`. -/
def containsSub (pat : List Char) : List Char → Bool
  | [] => startsWith pat []
  | c :: cs => startsWith pat (c :: cs) || containsSub pat cs

/-- The prompt actually sent by `predict_age_from_sentence`: the built
prompt, with the gene-removal surgery applied when `gene_to_remove` is
truthy (`if gene_to_remove:` skips `None` and `""`). -/
def promptOf (geneSentence : String) (sex : Option String)
    (smoking : Option Int) (tissue cellType : Option String)
    (geneToRemove : Option String) : String :=
  let prompt0 := buildPrompt geneSentence sex smoking tissue cellType
  match geneToRemove with
  | some g => if g = "" then prompt0 else removeGeneFromPrompt g prompt0
  | none => prompt0

/-- `predict_age_from_sentence` (`knockout.py` lines 22-119), with the
HTTP completion call abstracted as `complete`.  Returns the prompt that
was sent together with the outcome; a response with no numeric token
raises (`Except.error KErr.parseError`). -/
def predictAgeFromSentence (complete : String → Option String)
    (geneSentence model : String) (sex : Option String) (smoking : Option Int)
    (tissue cellType : Option String) (geneToRemove : Option String) :
    String × Except KErr ℚ :=
  let prompt := promptOf geneSentence sex smoking tissue cellType geneToRemove
  match complete prompt with
  | none => (prompt, Except.error KErr.upstreamError)
  | some text =>
    let raw := pyStrip text
    match extractAge raw with
    | none => (prompt, Except.error KErr.parseError)
    | some a => (prompt, Except.ok a)

/-- `KnockoutResult` (`knockout.py` lines 10-19), ages as exact rationals. -/
structure KnockoutResult where
  gene_knocked_out : String
  age_prediction : ℚ
  age_prediction_with_knockout : ℚ
  delta_age : ℚ
  original_gene_sentence : String
  knockout_gene_sentence : String
  model : String
  warning : Option String
deriving DecidableEq, Repr

/-- The warning message built at `knockout.py` line 174. -/
def notFoundMsg (geneSymbol : String) : String :=
  "Warning: Gene \x27" ++ geneSymbol ++ "\x27 not found in the gene sentence"

/-- `insilico_knockout` (`knockout.py` lines 122-242).  The second
component of the result is the list of prompts actually sent to the
inference endpoint, in order (the code performs the two predictions
sequentially and a raised error aborts the rest). -/
def insilicoKnockout (complete : String → Option String)
    (geneSymbol geneSentence model : String) (sex : Option String)
    (smoking : Option Int) (tissue cellType : Option String) :
    Except KErr KnockoutResult × List String :=
  let genes := splitWs geneSentence.data
  if genes = [] then (Except.error KErr.inputError, [])
  else
    let warning := if geneSymbol ∈ genes then none else some (notFoundMsg geneSymbol)
    let knockoutGenes := genes.filter (fun g => g ≠ geneSymbol)
    let knockoutSentence := joinSp knockoutGenes
    let r1 := predictAgeFromSentence complete geneSentence model sex smoking tissue cellType none
    match r1.2 with
    | Except.error e => (Except.error e, [r1.1])
    | Except.ok ageOriginal =>
      let r2 := predictAgeFromSentence complete geneSentence model sex smoking tissue cellType (some geneSymbol)
      match r2.2 with
      | Except.error e => (Except.error e, [r1.1, r2.1])
      | Except.ok ageKnockout =>
        (Except.ok {
          gene_knocked_out := geneSymbol
          age_prediction := ageOriginal
          age_prediction_with_knockout := ageKnockout
          delta_age := ageKnockout - ageOriginal
          original_gene_sentence := geneSentence
          knockout_gene_sentence := knockoutSentence
          model := model
          warning := warning }, [r1.1, r2.1])

/-- `AgePredictionResult` (`server.py` lines 42-47). -/
structure AgePredictionResult where
  predicted_age : Option ℚ
  raw_response : String
  prompt_used : String
  model : String
deriving DecidableEq, Repr

/-- The metadata-free prompt literal of `Cell2SentenceMCP.predict_age`
(`server.py` lines 171-175). -/
def standalonePrompt (geneSentence : String) : String :=
  "The following is a list of aging related gene names ordered by descending expression level in a cell.\n\nAging related cell sentence: " ++
    geneSentence ++
    "\nPredict the Age of the donor from whom these cells were taken.\nAnswer only with age value in years:"

/-- `Cell2SentenceMCP.predict_age` (`server.py` lines 146-221): the
standalone path swallows a parse failure, recording `predicted_age = None`
while keeping the raw response. -/
def predictAgeStandalone (complete : String → Option String)
    (geneSentence model : String) : Except KErr AgePredictionResult :=
  let prompt := standalonePrompt geneSentence
  match complete prompt with
  | none => Except.error KErr.upstreamError
  | some text =>
    let raw := pyStrip text
    Except.ok {
      predicted_age := extractAge raw
      raw_response := raw
      prompt_used := prompt
      model := model }

/-- The optional metadata line contributed by a truthiness-guarded string
field (used to state the prompt-builder characterisation). -/
def optLine (pre : String) : Option String → List String
  | none => []
  | some s => if s = "" then [] else [pre ++ s]

/-- The optional metadata line contributed by the `is not None`-guarded
integer field. -/
def optLineInt (pre : String) : Option Int → List String
  | none => []
  | some n => [pre ++ toString n]

/-- Oracle for concrete runs: the endpoint always answers `"42"`. -/
def oracle42 : String → Option String := fun _ => some "42"

/-- Oracle for concrete runs: the endpoint answers with no numeric token. -/
def oracleNoDigits : String → Option String := fun _ => some "no digits here"

/-- The knockout result of the concrete run
`insilicoKnockout oracle42 "B" "A B C" "m"` with no metadata. -/
def rB : KnockoutResult :=
  { gene_knocked_out := "B"
    age_prediction := 42
    age_prediction_with_knockout := 42
    delta_age := 0
    original_gene_sentence := "A B C"
    knockout_gene_sentence := "A C"
    model := "m"
    warning := none }

/-! ### Lemmas about whitespace collapsing -/

theorem collapseFuel_nil (n : Nat) : collapseFuel n ([] : List Char) = [] := by
  cases n <;> rfl

theorem dropWhile_head_or (p : Char → Bool) (l : List Char) :
    l.dropWhile p = [] ∨ ∃ c cs, l.dropWhile p = c :: cs ∧ p c = false := by
  induction l with
  | nil => exact Or.inl rfl
  | cons a as ih =>
    by_cases ha : p a
    · rw [List.dropWhile_cons_of_pos ha]
      exact ih
    · rw [List.dropWhile_cons_of_neg ha]
      exact Or.inr ⟨a, as, rfl, Bool.eq_false_iff.mpr ha⟩

theorem collapseFuel_space_mem : ∀ (n : Nat) (l : List Char), l.length ≤ n →
    ∀ c ∈ collapseFuel n l, isPySpace c = true → c = ' ' := by
  intro n
  induction n with
  | zero =>
    intro l hl c hc
    rw [List.length_eq_zero.mp (Nat.le_zero.mp hl)] at hc
    simp [collapseFuel] at hc
  | succ n ih =>
    intro l hl c hc hsp
    match l with
    | [] => simp [collapseFuel] at hc
    | a :: as =>
      simp only [List.length_cons] at hl
      by_cases ha : isPySpace a
      · rw [collapseFuel, if_pos ha] at hc
        rcases List.mem_cons.mp hc with rfl | hc
        · rfl
        · refine ih _ ?_ c hc hsp
          have h1 : (as.dropWhile isPySpace).length ≤ as.length :=
            (List.dropWhile_sublist isPySpace).length_le
          omega
      · rw [collapseFuel, if_neg ha] at hc
        rcases List.mem_cons.mp hc with rfl | hc
        · exact absurd hsp ha
        · exact ih _ (by omega) c hc hsp

theorem collapseFuel_cons_not_space (n : Nat) (c : Char) (cs : List Char)
    (hc : isPySpace c = false) :
    collapseFuel (n + 1) (c :: cs) = c :: collapseFuel n cs := by
  rw [collapseFuel, if_neg (by simp [hc])]

theorem collapseFuel_chain : ∀ (n : Nat) (l : List Char), l.length ≤ n →
    List.Chain' (fun a b => ¬(isPySpace a = true ∧ isPySpace b = true)) (collapseFuel n l) := by
  intro n
  induction n with
  | zero =>
    intro l hl
    rw [List.length_eq_zero.mp (Nat.le_zero.mp hl)]
    simp [collapseFuel]
  | succ n ih =>
    intro l hl
    match l with
    | [] => simp [collapseFuel]
    | a :: as =>
      simp only [List.length_cons] at hl
      by_cases ha : isPySpace a
      · rw [collapseFuel, if_pos ha]
        have hlen : (as.dropWhile isPySpace).length ≤ n := by
          have := (List.dropWhile_sublist (l := as) isPySpace).length_le
          omega
        rw [List.chain'_cons']
        refine ⟨?_, ih _ hlen⟩
        intro y hy
        rcases dropWhile_head_or isPySpace as with hnil | ⟨c, cs, hcons, hcf⟩
        · rw [hnil, collapseFuel_nil] at hy
          simp at hy
        · rw [hcons] at hy
          cases n with
          | zero =>
            rw [hcons] at hlen
            simp at hlen
          | succ n =>
            rw [collapseFuel_cons_not_space n c cs hcf] at hy
            simp only [List.head?_cons, Option.mem_def, Option.some.injEq] at hy
            subst hy
            intro hand
            rw [hcf] at hand
            exact Bool.false_ne_true hand.2
      · rw [collapseFuel, if_neg ha]
        rw [List.chain'_cons']
        refine ⟨?_, ih _ (by omega)⟩
        intro y hy hand
        exact ha hand.1

end C2S

deriving instance DecidableEq for Except

attribute [local semireducible] Rat.add Rat.sub Rat.mul Rat.inv Rat.ofScientific

namespace C2S

/-! ### Structural lemmas about the tokeniser -/

theorem splitFuel_wf : ∀ (n : Nat) (l : List Char) (w : String), w ∈ splitFuel n l →
    w.data ≠ [] ∧ ∀ c ∈ w.data, isPySpace c = false := by
  intro n
  induction n with
  | zero => intro l w hw; simp [splitFuel] at hw
  | succ n ih =>
    intro l w hw
    match l with
    | [] => simp [splitFuel] at hw
    | c :: cs =>
      by_cases hc : isPySpace c
      · rw [splitFuel, if_pos hc] at hw
        exact ih _ _ hw
      · rw [splitFuel, if_neg hc] at hw
        rcases List.mem_cons.mp hw with h | h
        · subst h
          refine ⟨by simp, ?_⟩
          intro x hx
          rcases List.mem_cons.mp hx with rfl | hx
          · exact Bool.eq_false_iff.mpr hc
          · have := List.mem_takeWhile_imp hx
            simpa using this
        · exact ih _ _ h

theorem empty_not_mem_splitFuel (n : Nat) (l : List Char) : ("" : String) ∉ splitFuel n l := by
  intro h
  exact (splitFuel_wf n l "" h).1 rfl

theorem takeWhile_append_of_all {p : Char → Bool} :
    ∀ (ws l : List Char), (∀ c ∈ ws, p c = true) →
      (ws ++ l).takeWhile p = ws ++ l.takeWhile p := by
  intro ws
  induction ws with
  | nil => intro l _; simp
  | cons a as ih =>
    intro l hall
    have ha : p a = true := hall a (List.mem_cons_self a as)
    simp only [List.cons_append, List.takeWhile_cons, ha, if_true]
    rw [ih l (fun c hc => hall c (List.mem_cons_of_mem a hc))]

theorem dropWhile_append_of_all {p : Char → Bool} :
    ∀ (ws l : List Char), (∀ c ∈ ws, p c = true) →
      (ws ++ l).dropWhile p = l.dropWhile p := by
  intro ws
  induction ws with
  | nil => intro l _; simp
  | cons a as ih =>
    intro l hall
    have ha : p a = true := hall a (List.mem_cons_self a as)
    simp only [List.cons_append, List.dropWhile_cons, ha, if_true]
    exact ih l (fun c hc => hall c (List.mem_cons_of_mem a hc))

theorem splitFuel_nil_fuel (n : Nat) : splitFuel n ([] : List Char) = [] := by
  cases n <;> rfl

theorem splitFuel_word (n : Nat) (c : Char) (cs rest : List Char)
    (hc : isPySpace c = false) (hcs : ∀ x ∈ cs, isPySpace x = false)
    (hrest : rest = [] ∨ ∃ t, rest = ' ' :: t) :
    splitFuel (n + 1) (c :: (cs ++ rest)) = String.mk (c :: cs) :: splitFuel n rest := by
  have hcsb : ∀ x ∈ cs, (!isPySpace x) = true := fun x hx => by simp [hcs x hx]
  have ht : (cs ++ rest).takeWhile (fun x => !isPySpace x) = cs := by
    rcases hrest with rfl | ⟨t, rfl⟩
    · rw [List.append_nil]
      exact List.takeWhile_eq_self_iff.mpr hcsb
    · rw [takeWhile_append_of_all cs _ hcsb]
      simp [List.takeWhile_cons, isPySpace]
  have hdw : (cs ++ rest).dropWhile (fun x => !isPySpace x) = rest := by
    rcases hrest with rfl | ⟨t, rfl⟩
    · rw [List.append_nil]
      exact List.dropWhile_eq_nil_iff.mpr (fun x hx => by simp [hcs x hx])
    · rw [dropWhile_append_of_all cs _ hcsb]
      simp [List.dropWhile_cons, isPySpace]
  rw [splitFuel, if_neg (by simp [hc]), ht, hdw]

theorem splitFuel_joinSp : ∀ (ks : List String) (n : Nat),
    (∀ w ∈ ks, w.data ≠ [] ∧ ∀ c ∈ w.data, isPySpace c = false) →
    (joinSp ks).data.length ≤ n →
    splitFuel n (joinSp ks).data = ks := by
  intro ks
  induction ks with
  | nil =>
    intro n _ _
    exact splitFuel_nil_fuel n
  | cons w ks ih =>
    intro n hwf hn
    obtain ⟨hne, hns⟩ := hwf w (List.mem_cons_self w ks)
    obtain ⟨c, cs, hd⟩ : ∃ c cs, w.data = c :: cs := by
      cases hdd : w.data with
      | nil => exact absurd hdd hne
      | cons c cs => exact ⟨c, cs, rfl⟩
    have hcns : isPySpace c = false := hns c (by rw [hd]; exact List.mem_cons_self c cs)
    have hcsns : ∀ x ∈ cs, isPySpace x = false := by
      intro x hx
      exact hns x (by rw [hd]; exact List.mem_cons_of_mem c hx)
    cases ks with
    | nil =>
      have hj : joinSp [w] = w := rfl
      rw [hj] at hn ⊢
      rw [hd] at hn ⊢
      cases n with
      | zero => simp at hn
      | succ n =>
        have := splitFuel_word n c cs [] hcns hcsns (Or.inl rfl)
        rw [List.append_nil] at this
        rw [this, splitFuel_nil_fuel, ← hd]
    | cons w' ks' =>
      have hj : joinSp (w :: w' :: ks') = w ++ " " ++ joinSp (w' :: ks') := rfl
      rw [hj] at hn ⊢
      rw [String.data_append, String.data_append, hd] at hn ⊢
      have hsp : (" " : String).data = [' '] := rfl
      rw [hsp] at hn ⊢
      have hassoc : c :: cs ++ [' '] ++ (joinSp (w' :: ks')).data =
          c :: (cs ++ (' ' :: (joinSp (w' :: ks')).data)) := by
        simp
      rw [hassoc] at hn ⊢
      have hlen : (c :: (cs ++ (' ' :: (joinSp (w' :: ks')).data))).length =
          cs.length + (joinSp (w' :: ks')).data.length + 2 := by
        simp [List.length_append]
        omega
      cases n with
      | zero => rw [hlen] at hn; omega
      | succ n =>
        rw [splitFuel_word n c cs (' ' :: (joinSp (w' :: ks')).data) hcns hcsns
          (Or.inr ⟨_, rfl⟩)]
        have hwn : String.mk (c :: cs) = w := by rw [← hd]
        rw [hwn]
        congr 1
        rw [hlen] at hn
        cases n with
        | zero => omega
        | succ n =>
          rw [splitFuel, if_pos (by rfl)]
          apply ih
          · intro x hx; exact hwf x (List.mem_cons_of_mem w hx)
          · omega

theorem splitWs_joinSp (ks : List String)
    (hwf : ∀ w ∈ ks, w.data ≠ [] ∧ ∀ c ∈ w.data, isPySpace c = false) :
    splitWs (joinSp ks).data = ks :=
  splitFuel_joinSp ks _ hwf (Nat.le_refl _)

theorem length_filter_ne_add_count (l : List String) (g : String) :
    (l.filter (fun x => x ≠ g)).length + l.count g = l.length := by
  induction l with
  | nil => simp
  | cons a as ih =>
    simp only [ne_eq, decide_not] at ih
    by_cases ha : a = g
    · subst ha
      simp [List.filter_cons, List.count_cons]
      omega
    · simp [List.filter_cons, List.count_cons, ha]
      omega

/-! ### Lemmas about whitespace collapsing -/


/-! ### Prompt builder characterisation -/

theorem promptParts_eq (gs : String) (sex : Option String) (smok : Option Int)
    (tiss ct : Option String) :
    promptParts gs sex smok tiss ct =
      headerLine :: (optLine "Sex: " sex ++ optLineInt "Smoking status: " smok ++
        optLine "Tissue: " tiss ++ optLine "Cell type: " ct ++
        ["Aging related cell sentence: " ++ gs, instr1, instr2]) := by
  cases sex <;> cases smok <;> cases tiss <;> cases ct <;>
    simp [promptParts, optLine, optLineInt] <;> split_ifs <;> simp

theorem mem_data_joinLines_head (x : String) (xs : List String) (c : Char)
    (hc : c ∈ x.data) : c ∈ (joinLines (x :: xs)).data := by
  cases xs with
  | nil => exact hc
  | cons y ys =>
    show c ∈ (x ++ "\n" ++ joinLines (y :: ys)).data
    rw [String.data_append, String.data_append]
    exact List.mem_append_left _ (List.mem_append_left _ hc)

theorem newline_mem_buildPrompt (gs : String) (sex : Option String)
    (smok : Option Int) (tiss ct : Option String) :
    '\n' ∈ (buildPrompt gs sex smok tiss ct).data := by
  rw [buildPrompt, promptParts_eq]
  exact mem_data_joinLines_head _ _ _ (by decide)

/-! ### Age parser characterisation -/

theorem findNum_eq_none_iff : ∀ l : List Char,
    findNum l = none ↔ ∀ c ∈ l, isDigitCh c = false := by
  intro l
  induction l with
  | nil => simp [findNum]
  | cons a as ih =>
    by_cases ha : isDigitCh a
    · rw [findNum, if_pos ha]
      constructor
      · intro h
        simp at h
      · intro h
        exact absurd ha (by simp [h a (List.mem_cons_self a as)])
    · rw [findNum, if_neg ha]
      rw [ih]
      constructor
      · intro h c hc
        rcases List.mem_cons.mp hc with rfl | hc
        · exact Bool.eq_false_iff.mpr ha
        · exact h c hc
      · intro h c hc
        exact h c (List.mem_cons_of_mem a hc)

/-! ### The prediction path never raises the input error -/

theorem predictAge_cases (complete : String → Option String)
    (gs model : String) (sex : Option String) (smok : Option Int)
    (tiss ct : Option String) (gtr : Option String) :
    predictAgeFromSentence complete gs model sex smok tiss ct gtr =
      (promptOf gs sex smok tiss ct gtr,
        match complete (promptOf gs sex smok tiss ct gtr) with
        | none => Except.error KErr.upstreamError
        | some text =>
          match extractAge (pyStrip text) with
          | none => Except.error KErr.parseError
          | some a => Except.ok a) := by
  rcases hc : complete (promptOf gs sex smok tiss ct gtr) with _ | text
  · simp [predictAgeFromSentence, hc]
  · rcases ha : extractAge (pyStrip text) with _ | a <;>
      simp [predictAgeFromSentence, hc, ha]

theorem predictAge_ne_inputError (complete : String → Option String)
    (gs model : String) (sex : Option String) (smok : Option Int)
    (tiss ct : Option String) (gtr : Option String) :
    (predictAgeFromSentence complete gs model sex smok tiss ct gtr).2 ≠
      Except.error KErr.inputError := by
  rw [predictAge_cases]
  cases complete (promptOf gs sex smok tiss ct gtr) with
  | none => simp
  | some text =>
    simp only
    cases extractAge (pyStrip text) with
    | none => simp
    | some a => simp

/-! ### Shared reduction lemmas for the knockout engine -/

theorem splitWs_filter_roundtrip (gs g : String) :
    splitWs (joinSp ((splitWs gs.data).filter (fun x => x ≠ g))).data =
      (splitWs gs.data).filter (fun x => x ≠ g) := by
  apply splitWs_joinSp
  intro w hw
  exact splitFuel_wf _ _ w (List.mem_of_mem_filter hw)

theorem insilicoKnockout_const_ok (complete : String → Option String)
    (g gs model : String) (sex : Option String) (smok : Option Int)
    (tiss ct : Option String) (text : String) (a : ℚ)
    (hg : splitWs gs.data ≠ [])
    (hc : ∀ p, complete p = some text)
    (ha : extractAge (pyStrip text) = some a) :
    insilicoKnockout complete g gs model sex smok tiss ct =
      (Except.ok {
          gene_knocked_out := g
          age_prediction := a
          age_prediction_with_knockout := a
          delta_age := a - a
          original_gene_sentence := gs
          knockout_gene_sentence := joinSp ((splitWs gs.data).filter (fun x => x ≠ g))
          model := model
          warning := if g ∈ splitWs gs.data then none else some (notFoundMsg g) },
        [promptOf gs sex smok tiss ct none, promptOf gs sex smok tiss ct (some g)]) := by
  simp [insilicoKnockout, hg, predictAge_cases, hc, ha]


/-! ### Claim theorems -/

/-- C1, counterexample: with gene `"FT"` and sentence `"FT FTL"`, the
code's gene removal differs from the spec-described transformation (whose
second and third replacements are restricted to end-of-text and
start-of-text), and the token `FTL` is partially removed: the substring
`FTL` no longer occurs anywhere in the rebuilt prompt, so removal is not
whole-token with no partial removal. -/
theorem c1_counterexample :
    removeGeneFromPrompt "FT" (buildPrompt "FT FTL" none none none none) ≠
      specGeneRemoval "FT" (buildPrompt "FT FTL" none none none none) ∧
    containsSub "FTL".data
      (removeGeneFromPrompt "FT" (buildPrompt "FT FTL" none none none none)).data = false := by
  constructor
  · decide
  · decide

/-- C1 (amended): when a non-empty gene_to_remove is specified, the
assembled prompt undergoes the three global replacements of the code
(every `" g "` by `" "`, then every `" g"` anywhere by `""`, then every
`"g "` anywhere by `""`) followed by whitespace collapsing
(`removeGeneFromPrompt`); the result never contains two adjacent
whitespace characters (hence no double spaces), and the example sentence
`"MT-CO1 FTL EEF1A1"` with gene `"MT-CO1"` yields the cell-sentence
segment `"FTL EEF1A1"` in the rebuilt prompt.  Whole-token
exactly-once removal does not hold for every prompt. -/
theorem c1_amended :
    (∀ (g p : String),
      List.Chain' (fun a b => ¬(isPySpace a = true ∧ isPySpace b = true))
        (removeGeneFromPrompt g p).data) ∧
    (∀ (complete : String → Option String) (gs model : String)
      (sex : Option String) (smok : Option Int) (tiss ct : Option String)
      (g : String), g ≠ "" →
      (predictAgeFromSentence complete gs model sex smok tiss ct (some g)).1 =
        removeGeneFromPrompt g (buildPrompt gs sex smok tiss ct)) ∧
    containsSub "cell sentence: FTL EEF1A1 Predict".data
      (removeGeneFromPrompt "MT-CO1" (buildPrompt "MT-CO1 FTL EEF1A1" none none none none)).data
      = true := by
  refine ⟨?_, ?_, by decide⟩
  · intro g p
    exact collapseFuel_chain _ _ (Nat.le_refl _)
  · intro complete gs model sex smok tiss ct g hg
    rw [predictAge_cases]
    simp [promptOf, hg]

/-- C1, witness for the amended claim at concrete inputs. -/
theorem c1_witness :
    (predictAgeFromSentence oracle42 "MT-CO1 FTL EEF1A1" "m" none none none none
        (some "MT-CO1")).1 =
      removeGeneFromPrompt "MT-CO1" (buildPrompt "MT-CO1 FTL EEF1A1" none none none none) :=
  c1_amended.2.1 oracle42 "MT-CO1 FTL EEF1A1" "m" none none none none "MT-CO1" (by decide)

/-- C2 (confirmed): every successful `insilico_knockout` returns
`delta_age` equal exactly to `age_prediction_with_knockout` minus
`age_prediction`, and the two age fields are exactly the outcomes of the
original-prompt call and the gene-removed-prompt call. -/
theorem c2_delta_exact (complete : String → Option String)
    (g gs model : String) (sex : Option String) (smok : Option Int)
    (tiss ct : Option String) (r : KnockoutResult)
    (hr : (insilicoKnockout complete g gs model sex smok tiss ct).1 = Except.ok r) :
    r.delta_age = r.age_prediction_with_knockout - r.age_prediction ∧
    (predictAgeFromSentence complete gs model sex smok tiss ct none).2 =
      Except.ok r.age_prediction ∧
    (predictAgeFromSentence complete gs model sex smok tiss ct (some g)).2 =
      Except.ok r.age_prediction_with_knockout := by
  by_cases hg : splitWs gs.data = []
  · simp [insilicoKnockout, hg] at hr
  · rcases h1 : (predictAgeFromSentence complete gs model sex smok tiss ct none).2 with e | a1
    · simp [insilicoKnockout, hg, h1] at hr
    · rcases h2 : (predictAgeFromSentence complete gs model sex smok tiss ct (some g)).2 with e | a2
      · simp [insilicoKnockout, hg, h1, h2] at hr
      · simp only [insilicoKnockout, hg, if_false, h1, h2] at hr
        injection hr with hr
        subst hr
        exact ⟨rfl, rfl, rfl⟩

/-- C2, witness: the concrete run `insilicoKnockout oracle42 "B" "A B C"`. -/
theorem c2_witness : rB.delta_age = rB.age_prediction_with_knockout - rB.age_prediction :=
  (c2_delta_exact oracle42 "B" "A B C" "m" none none none none rB (by decide)).1


/-- C3 (confirmed): for every gene sentence whose tokens contain the gene
exactly once, a successful knockout returns `knockout_gene_sentence` equal
to the remaining tokens rejoined with single spaces, tokenising back to
exactly N-1 tokens none of which is the gene, and the warning is absent. -/
theorem c3_unique_removal (complete : String → Option String)
    (g gs model : String) (sex : Option String) (smok : Option Int)
    (tiss ct : Option String) (r : KnockoutResult)
    (hcount : (splitWs gs.data).count g = 1)
    (hr : (insilicoKnockout complete g gs model sex smok tiss ct).1 = Except.ok r) :
    r.knockout_gene_sentence = joinSp ((splitWs gs.data).filter (fun x => x ≠ g)) ∧
    splitWs r.knockout_gene_sentence.data = (splitWs gs.data).filter (fun x => x ≠ g) ∧
    (splitWs r.knockout_gene_sentence.data).length = (splitWs gs.data).length - 1 ∧
    g ∉ splitWs r.knockout_gene_sentence.data ∧
    r.warning = none := by
  have hmem : g ∈ splitWs gs.data := by
    have hpos : 0 < (splitWs gs.data).count g := by omega
    exact List.count_pos_iff.mp hpos
  have hg : splitWs gs.data ≠ [] := by
    intro h
    rw [h] at hmem
    simp at hmem
  rcases h1 : (predictAgeFromSentence complete gs model sex smok tiss ct none).2 with e | a1
  · simp [insilicoKnockout, hg, h1] at hr
  · rcases h2 : (predictAgeFromSentence complete gs model sex smok tiss ct (some g)).2 with e | a2
    · simp [insilicoKnockout, hg, h1, h2] at hr
    · simp only [insilicoKnockout, hg, if_false, h1, h2] at hr
      injection hr with hr
      subst hr
      refine ⟨rfl, ?_, ?_, ?_, ?_⟩
      · exact splitWs_filter_roundtrip gs g
      · show (splitWs (joinSp ((splitWs gs.data).filter (fun x => x ≠ g))).data).length =
          (splitWs gs.data).length - 1
        rw [splitWs_filter_roundtrip gs g]
        have := length_filter_ne_add_count (splitWs gs.data) g
        omega
      · show g ∉ splitWs (joinSp ((splitWs gs.data).filter (fun x => x ≠ g))).data
        rw [splitWs_filter_roundtrip gs g]
        intro hin
        have := (List.mem_filter.mp hin).2
        simp at this
      · show (if g ∈ splitWs gs.data then none else some (notFoundMsg g)) = none
        rw [if_pos hmem]

/-- C3, witness: the concrete run `insilicoKnockout oracle42 "B" "A B C"`
where `"B"` occurs exactly once. -/
theorem c3_witness : rB.warning = none :=
  (c3_unique_removal oracle42 "B" "A B C" "m" none none none none rB
    (by decide) (by decide)).2.2.2.2

/-- C4 (confirmed): when the gene is absent from the (non-empty) token
list and both inference calls succeed, `insilico_knockout` still returns
a successful result whose warning contains the substring "not found",
whose `knockout_gene_sentence` is the original token list rejoined, and
whose delta is still computed from the two calls. -/
theorem c4_not_found_warning (complete : String → Option String)
    (g gs model : String) (sex : Option String) (smok : Option Int)
    (tiss ct : Option String) (text : String) (a : ℚ)
    (hg : splitWs gs.data ≠ [])
    (habs : g ∉ splitWs gs.data)
    (hc : ∀ p, complete p = some text)
    (ha : extractAge (pyStrip text) = some a) :
    (insilicoKnockout complete g gs model sex smok tiss ct).1 =
      Except.ok { gene_knocked_out := g, age_prediction := a,
                  age_prediction_with_knockout := a, delta_age := a - a,
                  original_gene_sentence := gs,
                  knockout_gene_sentence := joinSp (splitWs gs.data),
                  model := model, warning := some (notFoundMsg g) } ∧
    "not found".data <:+: (notFoundMsg g).data := by
  constructor
  · rw [insilicoKnockout_const_ok complete g gs model sex smok tiss ct text a hg hc ha]
    have hfil : (splitWs gs.data).filter (fun x => x ≠ g) = splitWs gs.data :=
      List.filter_eq_self.mpr (fun x hx => by
        have hxg : x ≠ g := fun he => habs (he ▸ hx)
        simp [hxg])
    simp [habs]
    exact congrArg joinSp (by simpa using hfil)
  · show "not found".data <:+:
      ("Warning: Gene \x27" ++ g ++ "\x27 not found in the gene sentence").data
    rw [String.data_append]
    have h1 : "not found".data <:+: ("\x27 not found in the gene sentence" : String).data := by
      decide
    exact h1.trans (List.suffix_append _ _).isInfix

/-- C4, witness: gene `"NOPE"` absent from `"A B"`. -/
theorem c4_witness :
    (insilicoKnockout oracle42 "NOPE" "A B" "m" none none none none).1 =
      Except.ok { gene_knocked_out := "NOPE", age_prediction := 42,
                  age_prediction_with_knockout := 42, delta_age := 42 - 42,
                  original_gene_sentence := "A B",
                  knockout_gene_sentence := joinSp (splitWs ("A B" : String).data),
                  model := "m", warning := some (notFoundMsg "NOPE") } :=
  (c4_not_found_warning oracle42 "NOPE" "A B" "m" none none none none "42" 42
    (by decide) (by decide) (fun _ => rfl) (by decide)).1

/-- C5 (confirmed): `insilico_knockout` raises the input error exactly
when the gene sentence tokenises to zero tokens, and in that case no
inference request is ever issued (the trace of prompts sent is empty,
whatever the completion oracle would answer). -/
theorem c5_empty_input (complete : String → Option String)
    (g gs model : String) (sex : Option String) (smok : Option Int)
    (tiss ct : Option String) :
    ((insilicoKnockout complete g gs model sex smok tiss ct).1 =
        Except.error KErr.inputError ↔ splitWs gs.data = []) ∧
    (splitWs gs.data = [] →
      insilicoKnockout complete g gs model sex smok tiss ct =
        (Except.error KErr.inputError, [])) := by
  by_cases hg : splitWs gs.data = []
  · exact ⟨by simp [insilicoKnockout, hg], fun _ => by simp [insilicoKnockout, hg]⟩
  · refine ⟨⟨?_, fun h => absurd h hg⟩, fun h => absurd h hg⟩
    intro h
    exfalso
    rcases h1 : (predictAgeFromSentence complete gs model sex smok tiss ct none).2 with e | a1
    · simp only [insilicoKnockout, hg, if_false, h1] at h
      injection h with h
      exact predictAge_ne_inputError complete gs model sex smok tiss ct none (h ▸ h1)
    · rcases h2 : (predictAgeFromSentence complete gs model sex smok tiss ct (some g)).2 with e | a2
      · simp only [insilicoKnockout, hg, if_false, h1, h2] at h
        injection h with h
        exact predictAge_ne_inputError complete gs model sex smok tiss ct (some g) (h ▸ h2)
      · simp only [insilicoKnockout, hg, if_false, h1, h2] at h
        exact Except.noConfusion h

/-- C5, witness: the empty gene sentence raises the input error with an
empty trace of inference calls. -/
theorem c5_witness :
    insilicoKnockout oracle42 "G" "" "m" none none none none =
      (Except.error KErr.inputError, []) :=
  (c5_empty_input oracle42 "G" "" "m" none none none none).2 (by decide)


/-- C6, counterexample: with `sex` present but equal to the empty string,
the prompt parts are identical to the no-sex prompt and contain no line
starting with `"Sex: "`, refuting "line present iff the value is
present/non-absent" (Python truthiness also drops present-but-empty
string values). -/
theorem c6_counterexample :
    promptParts "GENE" (some "") none none none =
      promptParts "GENE" none none none none ∧
    (promptParts "GENE" (some "") none none none).all
      (fun l => !(startsWith "Sex: ".data l.data)) = true := by
  exact ⟨by decide, by decide⟩

/-- C6 (amended): the prompt parts are exactly the header followed by the
optional metadata lines in the fixed order Sex, Smoking status, Tissue,
Cell type — a string field contributing its line iff it is present and
non-empty (Python truthiness), the smoking field iff it is present (even
when 0) — followed by the cell-sentence line and the two fixed
instruction lines; in particular `smoking_status = 0` still yields the
line `"Smoking status: 0"`. -/
theorem c6_metadata_lines (gs : String) (sex : Option String)
    (smok : Option Int) (tiss ct : Option String) :
    promptParts gs sex smok tiss ct =
      headerLine :: (optLine "Sex: " sex ++ optLineInt "Smoking status: " smok ++
        optLine "Tissue: " tiss ++ optLine "Cell type: " ct ++
        ["Aging related cell sentence: " ++ gs, instr1, instr2]) ∧
    "Smoking status: 0" ∈ promptParts gs sex (some 0) tiss ct := by
  refine ⟨promptParts_eq gs sex smok tiss ct, ?_⟩
  rw [promptParts_eq]
  have hB : "Smoking status: 0" ∈ optLineInt "Smoking status: " (some 0) := by decide
  exact List.mem_cons_of_mem _ (List.mem_append_left _ (List.mem_append_left _
    (List.mem_append_left _ (List.mem_append_right _ hB))))

/-- C7 (confirmed): the age parser returns the first decimal-number token
of a left-to-right scan (digits, optional single decimal point, no sign)
and fails exactly when the text contains no digit; in particular
`"Age: 42.5 years"` parses to 42.5, `"7"` to 7, `"no digits here"` fails,
and a leading minus sign is not captured. -/
theorem c7_age_extraction :
    (∀ raw : String, extractAge raw = none ↔ ∀ c ∈ raw.data, isDigitCh c = false) ∧
    extractAge "Age: 42.5 years" = some ((85 : ℚ)/2) ∧
    extractAge "7" = some (7 : ℚ) ∧
    extractAge "no digits here" = none ∧
    extractAge "-12.5" = some ((25 : ℚ)/2) := by
  refine ⟨fun raw => findNum_eq_none_iff raw.data, by decide, by decide, by decide, by decide⟩

/-- C8 (confirmed): when every completion response lacks a numeric token,
the knockout-path prediction raises the parse error (and the whole
knockout call aborts with it), while the standalone `predict_age` path
returns a successful result with `predicted_age` absent and the raw
response recorded. -/
theorem c8_parse_failure_contracts (complete : String → Option String)
    (gs g model text : String)
    (hc : ∀ p, complete p = some text)
    (hnone : extractAge (pyStrip text) = none) :
    (predictAgeFromSentence complete gs model none none none none none).2 =
      Except.error KErr.parseError ∧
    (splitWs gs.data ≠ [] →
      (insilicoKnockout complete g gs model none none none none).1 =
        Except.error KErr.parseError) ∧
    predictAgeStandalone complete gs model =
      Except.ok { predicted_age := none, raw_response := pyStrip text,
                  prompt_used := standalonePrompt gs, model := model } := by
  have hp : ∀ (sex : Option String) (smok : Option Int) (tiss ct : Option String)
      (gtr : Option String),
      (predictAgeFromSentence complete gs model sex smok tiss ct gtr).2 =
        Except.error KErr.parseError := by
    intro sex smok tiss ct gtr
    rw [predictAge_cases]
    simp [hc, hnone]
  refine ⟨hp none none none none none, ?_, ?_⟩
  · intro hg
    simp [insilicoKnockout, hg, hp]
  · simp [predictAgeStandalone, hc, hnone]

/-- C8, witness: a response with no digits at concrete inputs. -/
theorem c8_witness :
    (insilicoKnockout oracleNoDigits "A" "A B" "m" none none none none).1 =
      Except.error KErr.parseError :=
  (c8_parse_failure_contracts oracleNoDigits "A B" "A" "m" "no digits here"
    (fun _ => rfl) (by decide)).2.1 (by decide)

/-- C9 (confirmed): whenever gene removal is applied (non-empty
gene_to_remove), the final whitespace collapse also replaces the newlines
between the prompt lines, so the knockout prompt contains no newline and
always differs from the original multi-line prompt, even when the gene
occurs nowhere in the prompt text. -/
theorem c9_knockout_prompt_no_newline (complete : String → Option String)
    (gs model : String) (sex : Option String) (smok : Option Int)
    (tiss ct : Option String) (g : String) (hg : g ≠ "") :
    (∀ c ∈ ((predictAgeFromSentence complete gs model sex smok tiss ct (some g)).1).data,
      c ≠ '\n') ∧
    (predictAgeFromSentence complete gs model sex smok tiss ct (some g)).1 ≠
      (predictAgeFromSentence complete gs model sex smok tiss ct none).1 := by
  have h1 : (predictAgeFromSentence complete gs model sex smok tiss ct (some g)).1 =
      removeGeneFromPrompt g (buildPrompt gs sex smok tiss ct) := by
    rw [predictAge_cases]
    simp [promptOf, hg]
  have h2 : (predictAgeFromSentence complete gs model sex smok tiss ct none).1 =
      buildPrompt gs sex smok tiss ct := by
    rw [predictAge_cases]
    simp [promptOf]
  have hnomem : ∀ c ∈ (removeGeneFromPrompt g (buildPrompt gs sex smok tiss ct)).data,
      c ≠ '\n' := by
    intro c hc he
    subst he
    have hsp : isPySpace '\n' = true := by decide
    have heq : '\n' = ' ' := collapseFuel_space_mem _ _ (Nat.le_refl _) '\n' hc hsp
    exact absurd heq (by decide)
  constructor
  · rw [h1]
    exact hnomem
  · rw [h1, h2]
    intro he
    have hn := newline_mem_buildPrompt gs sex smok tiss ct
    rw [← he] at hn
    exact hnomem '\n' hn rfl

/-- C9, witness: concrete gene `"X"` absent from the prompt text. -/
theorem c9_witness :
    (predictAgeFromSentence oracle42 "A B" "m" none none none none (some "X")).1 ≠
      (predictAgeFromSentence oracle42 "A B" "m" none none none none none).1 :=
  (c9_knockout_prompt_no_newline oracle42 "A B" "m" none none none none "X" (by decide)).2

/-- C10 (confirmed): knocking out the empty gene symbol succeeds: the
empty string is never a token, so the not-found warning (which contains
"not found") is set, `knockout_gene_sentence` is the original tokens
rejoined, and — because the empty gene_to_remove is falsy — no text
surgery is applied, so both prompts sent are the original built prompt. -/
theorem c10_empty_gene (complete : String → Option String)
    (gs model : String) (sex : Option String) (smok : Option Int)
    (tiss ct : Option String) (text : String) (a : ℚ)
    (hg : splitWs gs.data ≠ [])
    (hc : ∀ p, complete p = some text)
    (ha : extractAge (pyStrip text) = some a) :
    insilicoKnockout complete "" gs model sex smok tiss ct =
      (Except.ok { gene_knocked_out := "", age_prediction := a,
                   age_prediction_with_knockout := a, delta_age := a - a,
                   original_gene_sentence := gs,
                   knockout_gene_sentence := joinSp (splitWs gs.data),
                   model := model, warning := some (notFoundMsg "") },
       [buildPrompt gs sex smok tiss ct, buildPrompt gs sex smok tiss ct]) ∧
    "not found".data <:+: (notFoundMsg "").data := by
  have hne : ("" : String) ∉ splitWs gs.data := empty_not_mem_splitFuel _ _
  constructor
  · rw [insilicoKnockout_const_ok complete "" gs model sex smok tiss ct text a hg hc ha]
    have hfil : (splitWs gs.data).filter (fun x => x ≠ "") = splitWs gs.data :=
      List.filter_eq_self.mpr (fun x hx => by
        have hxg : x ≠ "" := fun he => hne (he ▸ hx)
        simp [hxg])
    simp [hne, promptOf]
    exact congrArg joinSp (by simpa using hfil)
  · decide

/-- C10, witness: concrete run with the empty gene symbol. -/
theorem c10_witness :
    insilicoKnockout oracle42 "" "A B" "m" none none none none =
      (Except.ok { gene_knocked_out := "", age_prediction := 42,
                   age_prediction_with_knockout := 42, delta_age := 42 - 42,
                   original_gene_sentence := "A B",
                   knockout_gene_sentence := joinSp (splitWs ("A B" : String).data),
                   model := "m", warning := some (notFoundMsg "") },
       [buildPrompt "A B" none none none none, buildPrompt "A B" none none none none]) :=
  (c10_empty_gene oracle42 "A B" "m" none none none none "42" 42
    (by decide) (fun _ => rfl) (by decide)).1

end C2S
